import Mathlib

/-!
A shallow embedding of the leveled logger (`log.go`).

The Go package wraps an `io.WriteCloser` and a standard-library `log.Logger`
with level filtering, a task label and a caller location.

Modelling conventions.

* `Level` and skip depths are Go `int`s; only comparisons are made on them,
  so they are embedded as `Int`.
* Strings are sequences of Unicode code points (`String`).
* A variadic `args ...interface{}` is a `List String`: each element is the
  text that `fmt` prints for that operand with its default format (for a
  string operand, the string itself).
* A sink (`io.WriteCloser`) is an external collaborator.  The world records
  the `Write` and `Close` calls that sinks receive, oldest first.
* What the Go runtime, the clock and the file system answer during one call
  is collected in `Env`.
* A Go panic is the `Except.error` branch of a result; functions that touch
  sinks return the result together with the world they leave behind.
-/

namespace GoLog

/-! ## Levels -/

/-- Go `type Level int`. -/
abbrev Level := Int

/-- Errors must be properly handled. -/
abbrev FatalLevel : Level := 0
/-- Errors should be properly handled. -/
abbrev ErrorLevel : Level := 1
/-- Errors could be ignored; messages might need noticed. -/
abbrev WarnLevel : Level := 2
/-- Informational messages. -/
abbrev InfoLevel : Level := 3
/-- Debug messages. -/
abbrev DebugLevel : Level := 4

/-- The lower-case mapping of one code point, as far as it can reach an ASCII
letter: `A`..`Z` go to `a`..`z`, and the two non-ASCII code points whose
simple lower-case mapping is an ASCII letter (U+0130 to `i`, U+212A to `k`)
are mapped as the Go `unicode` tables do.  Every other code point is left
alone; the Go tables send it to a non-ASCII code point or to itself. -/
def toLowerRune (c : Char) : Char :=
  if 'A' ≤ c ∧ c ≤ 'Z' then Char.ofNat (c.toNat + 32)
  else if c = Char.ofNat 0x130 then 'i'
  else if c = Char.ofNat 0x212A then 'k'
  else c

/-- Go `strings.ToLower`, code point by code point. -/
def ToLower (s : String) : String := ⟨s.data.map toLowerRune⟩

/-- `ParseLevel`: a `switch` on the lower-cased string. -/
def ParseLevel (levelString : String) : Level :=
  let s := ToLower levelString
  if s = "debug" then DebugLevel
  else if s = "info" then InfoLevel
  else if s = "warn" then WarnLevel
  else if s = "error" then ErrorLevel
  else if s = "fatal" then FatalLevel
  else InfoLevel

/-! ## Sinks and the world -/

/-- Identity of a buffer or of an open file. -/
abbrev Handle := Nat

/-- The `io.WriteCloser` values a logger can hold: the package's own
`CloseBuffer` around a `*bytes.Buffer`, or any other implementation (an
`*os.File` in particular). -/
inductive WriteCloser where
  | closeBuffer (buf : Handle)
  | handle (fd : Handle)
deriving DecidableEq, Repr

/-- A call received by a sink. -/
inductive SinkCall where
  | write (s : WriteCloser) (p : String)
  | close (s : WriteCloser)
deriving DecidableEq, Repr

/-- The calls received by all sinks so far, oldest first. -/
structure World where
  calls : List SinkCall
deriving DecidableEq, Repr

/-- The world after one more sink call. -/
def World.record (w : World) (c : SinkCall) : World :=
  { w with calls := w.calls ++ [c] }

/-- The payloads of the `Write` calls that sink `s` has received, oldest first. -/
def World.written (w : World) (s : WriteCloser) : List String :=
  w.calls.filterMap fun c =>
    match c with
    | .write t p => if t = s then some p else none
    | .close _ => none

/-- What the surroundings answer during one call into the package. -/
structure Env where
  /-- `runtime.Caller(skip)` as evaluated inside `GetCaller`: the file path and
  line of the frame, or `none` when `ok` is false. -/
  caller : Int → Option (String × Int)
  /-- The date and time header that `log.Logger` puts in front of a line for
  the flags `Ldate | Ltime | Lmicroseconds`. -/
  stamp : String
  /-- `os.OpenFile(path, O_RDWR|O_CREATE|O_APPEND, 0666)`: the new file or the
  error text. -/
  openFile : String → Except String Handle
  /-- What `Close` returns on a sink that is not a `CloseBuffer`. -/
  closeErr : Handle → Option String

/-! ## Standard library pieces -/

/-- The operand loop of `fmt.Sprintln`: a space before every operand but the
first. -/
def doPrintln : Nat → List String → String
  | _, [] => ""
  | argNum, a :: rest => (if argNum > 0 then " " else "") ++ a ++ doPrintln (argNum + 1) rest

/-- Go `fmt.Sprintln`: operands separated by spaces, then a newline. -/
def Sprintln (args : List String) : String := doPrintln 0 args ++ "\n"

/-- Go `log.Logger`: its output, its line header text and its flags. -/
structure StdLogger where
  out : WriteCloser
  pfx : String
  flag : Nat
deriving DecidableEq, Repr

/-- Go `log.New`. -/
def New (out : WriteCloser) (pfx : String) (flag : Nat) : StdLogger :=
  { out := out, pfx := pfx, flag := flag }

/-- `log.Ldate | log.Ltime | log.Lmicroseconds`. -/
abbrev logFlags : Nat := 1 ||| 2 ||| 4

/-- Go `(*log.Logger).Println`: one `Write` on the output carrying the header
and the `Sprintln` text, which already ends in a newline. -/
def StdLogger.Println (lg : StdLogger) (env : Env) (args : List String) (w : World) : World :=
  w.record (.write lg.out (lg.pfx ++ env.stamp ++ Sprintln args))

/-- Go `strings.Split(s, "/")`. -/
def Split (s : String) : List String :=
  (s.data.splitOn '/').map String.mk

/-- Go slice indexing `xs[i]`: a run-time panic when `i` is out of range. -/
def index (xs : List String) (i : Int) : Except String String :=
  if i < 0 then .error "runtime error: index out of range"
  else
    match xs.get? i.toNat with
    | some x => .ok x
    | none => .error "runtime error: index out of range"

/-! ## The logger -/

/-- Go `type Logger struct`. -/
structure Logger where
  filePath : String
  out : WriteCloser
  level : Level
  logger : StdLogger
  task : String
  skipCallDepth : Int
deriving DecidableEq, Repr

/-- `GetCaller`: the last two components of the file path and the line. -/
def GetCaller (env : Env) (skipCallDepth : Int) : Except String String :=
  match env.caller skipCallDepth with
  | none => .ok ""
  | some (fullPath, line) =>
    let fileParts := Split fullPath
    match index fileParts ((fileParts.length : Int) - 2) with
    | .error e => .error e
    | .ok dir =>
      match index fileParts ((fileParts.length : Int) - 1) with
      | .error e => .error e
      | .ok base => .ok (dir ++ "/" ++ base ++ ":" ++ toString line)

/-- `prefixArray`: the task label (a dash when empty) and the caller location. -/
def prefixArray (env : Env) (task : String) (skipCallDepth : Int) : Except String (List String) :=
  let task := if task.length = 0 then "-" else task
  match GetCaller env skipCallDepth with
  | .error e => .error e
  | .ok c => .ok [task, c]

/-- `NewLogger`. -/
def NewLogger (out : WriteCloser) (logLevel : Level) : Logger :=
  { filePath := ""
    out := out
    level := logLevel
    logger := New out "" logFlags
    task := ""
    skipCallDepth := 3 }

/-- `NewFileLogger`: panics when the file cannot be opened. -/
def NewFileLogger (env : Env) (path : String) (logLevel : Level) : Except String Logger :=
  match env.openFile path with
  | .error _ => .error ("Failed to open log file " ++ path)
  | .ok f => .ok { NewLogger (.handle f) logLevel with filePath := path }

/-- `Logger.NewWithTaskName`. -/
def Logger.NewWithTaskName (l : Logger) (taskName : String) : Logger :=
  { filePath := ""
    out := l.out
    level := l.level
    logger := l.logger
    task := taskName
    skipCallDepth := l.skipCallDepth }

/-- `(*Logger).SetSkipCallDepth`: the value of the receiver afterwards. -/
def Logger.SetSkipCallDepth (l : Logger) (depth : Int) : Logger :=
  { l with skipCallDepth := depth }

/-- `(*Logger).ResetLevel`: the value of the receiver afterwards. -/
def Logger.ResetLevel (l : Logger) (level : Level) : Logger :=
  { l with level := level }

/-- `Logger.GetLogger`. -/
def Logger.GetLogger (l : Logger) : StdLogger := l.logger

/-- `Logger.Log`: the line header is built first; each `case` of the `switch`
returns when the configured level is below it and appends its tag otherwise;
a level outside the five cases falls through to the write with no tag. -/
def Logger.Log (l : Logger) (env : Env) (level : Level) (skipCallDepth : Int)
    (args : List String) (w : World) : Except String Unit × World :=
  match prefixArray env l.task skipCallDepth with
  | .error e => (.error e, w)
  | .ok pa =>
    if level = InfoLevel then
      if l.level < InfoLevel then (.ok (), w)
      else (.ok (), l.logger.Println env ((pa ++ ["[INFO]"]) ++ args) w)
    else if level = WarnLevel then
      if l.level < WarnLevel then (.ok (), w)
      else (.ok (), l.logger.Println env ((pa ++ ["[WARN]"]) ++ args) w)
    else if level = ErrorLevel then
      if l.level < ErrorLevel then (.ok (), w)
      else (.ok (), l.logger.Println env ((pa ++ ["[ERROR]"]) ++ args) w)
    else if level = FatalLevel then
      if l.level < FatalLevel then (.ok (), w)
      else (.ok (), l.logger.Println env ((pa ++ ["[FATAL]"]) ++ args) w)
    else if level = DebugLevel then
      if l.level < DebugLevel then (.ok (), w)
      else (.ok (), l.logger.Println env ((pa ++ ["[DEBUG]"]) ++ args) w)
    else (.ok (), l.logger.Println env (pa ++ args) w)

/-- `Logger.Debug`. -/
def Logger.Debug (l : Logger) (env : Env) (args : List String) (w : World) :
    Except String Unit × World :=
  if l.level < DebugLevel then (.ok (), w)
  else
    match prefixArray env l.task l.skipCallDepth with
    | .error e => (.error e, w)
    | .ok pa => (.ok (), l.logger.Println env ((pa ++ ["[DEBUG]"]) ++ args) w)

/-- `Logger.Info`. -/
def Logger.Info (l : Logger) (env : Env) (args : List String) (w : World) :
    Except String Unit × World :=
  if l.level < InfoLevel then (.ok (), w)
  else
    match prefixArray env l.task l.skipCallDepth with
    | .error e => (.error e, w)
    | .ok pa => (.ok (), l.logger.Println env ((pa ++ ["[INFO]"]) ++ args) w)

/-- `Logger.Warn`. -/
def Logger.Warn (l : Logger) (env : Env) (args : List String) (w : World) :
    Except String Unit × World :=
  if l.level < WarnLevel then (.ok (), w)
  else
    match prefixArray env l.task l.skipCallDepth with
    | .error e => (.error e, w)
    | .ok pa => (.ok (), l.logger.Println env ((pa ++ ["[WARN]"]) ++ args) w)

/-- `Logger.Error`. -/
def Logger.Error (l : Logger) (env : Env) (args : List String) (w : World) :
    Except String Unit × World :=
  if l.level < ErrorLevel then (.ok (), w)
  else
    match prefixArray env l.task l.skipCallDepth with
    | .error e => (.error e, w)
    | .ok pa => (.ok (), l.logger.Println env ((pa ++ ["[ERROR]"]) ++ args) w)

/-- `Logger.Fatal`. -/
def Logger.Fatal (l : Logger) (env : Env) (args : List String) (w : World) :
    Except String Unit × World :=
  if l.level < FatalLevel then (.ok (), w)
  else
    match prefixArray env l.task l.skipCallDepth with
    | .error e => (.error e, w)
    | .ok pa => (.ok (), l.logger.Println env ((pa ++ ["[FATAL]"]) ++ args) w)

/-- `Logger.Println`: one `Write` on the sink, its result dropped. -/
def Logger.Println (l : Logger) (args : List String) (w : World) : World :=
  w.record (.write l.out (Sprintln args))

/-- `CloseBuffer.Close`: the buffer is reset (recorded as a `Close` call on
it) and no error is returned. -/
def CloseBuffer.Close (buf : Handle) (w : World) : Option String × World :=
  (none, w.record (.close (.closeBuffer buf)))

/-- The `Close` method of a sink, by dynamic type. -/
def WriteCloser.Close (s : WriteCloser) (env : Env) (w : World) : Option String × World :=
  match s with
  | .closeBuffer buf => CloseBuffer.Close buf w
  | .handle fd => (env.closeErr fd, w.record (.close (.handle fd)))

/-- `Logger.Close`. -/
def Logger.Close (l : Logger) (env : Env) (w : World) : Option String × World :=
  l.out.Close env w

/-- `(*Logger).ReopenLogFile`: the value of the receiver afterwards, or the
panic raised when the file cannot be opened. -/
def Logger.ReopenLogFile (l : Logger) (env : Env) (w : World) : Except String Logger × World :=
  if l.filePath.length = 0 then (.ok l, w)
  else
    match env.openFile l.filePath with
    | .error err => (.error (Sprintln ["ReopenLogFile:", l.filePath, err]), w)
    | .ok newFile =>
      let newLogger := New (.handle newFile) "" logFlags
      let oldFile := l.out
      let l1 := { l with out := .handle newFile, logger := newLogger }
      (.ok l1, (oldFile.Close env w).2)

/-- What the buffer inside `CloseBuffer` holds: the payloads written to it
since it was last reset by `Close`. -/
def CloseBuffer.String (w : World) (buf : Handle) : String :=
  w.calls.foldl
    (fun acc c =>
      match c with
      | .write (.closeBuffer b) p => if b = buf then acc ++ p else acc
      | .close (.closeBuffer b) => if b = buf then "" else acc
      | _ => acc)
    ""

/-! ## Vocabulary for the statements -/

/-- The five convenience methods. -/
inductive Method where
  | Debug | Info | Warn | Error | Fatal
deriving DecidableEq, Repr

/-- The severity a convenience method logs at. -/
def Method.severity : Method → Level
  | .Debug => DebugLevel
  | .Info => InfoLevel
  | .Warn => WarnLevel
  | .Error => ErrorLevel
  | .Fatal => FatalLevel

/-- The tag a convenience method puts in the line. -/
def Method.tag : Method → String
  | .Debug => "[DEBUG]"
  | .Info => "[INFO]"
  | .Warn => "[WARN]"
  | .Error => "[ERROR]"
  | .Fatal => "[FATAL]"

/-- What the five convenience methods share below their level check: the
line header, the tag, the arguments, and the call of the line writer. -/
def Logger.tagged (l : Logger) (env : Env) (tag : String) (args : List String) (w : World) :
    Except String Unit × World :=
  match prefixArray env l.task l.skipCallDepth with
  | .error e => (.error e, w)
  | .ok pa => (.ok (), l.logger.Println env ((pa ++ [tag]) ++ args) w)

/-- Calling the convenience method `m` on `l`. -/
def Logger.emit (l : Logger) (m : Method) (env : Env) (args : List String) (w : World) :
    Except String Unit × World :=
  match m with
  | .Debug => l.Debug env args w
  | .Info => l.Info env args w
  | .Warn => l.Warn env args w
  | .Error => l.Error env args w
  | .Fatal => l.Fatal env args w

/-- The line writer of `l` is a `log.Logger` made by `log.New` on the sink of
`l`; every constructor of the package establishes this and every method
keeps it. -/
def Logger.wired (l : Logger) : Prop := l.logger = New l.out "" logFlags

instance (l : Logger) : Decidable l.wired := inferInstanceAs (Decidable (_ = _))

/-- Equality of `s` and a lower-case ASCII word `w` ignoring letter case:
lowering the letters `A`..`Z` of `s` gives `w`. -/
def eqIgnoreCase (s w : String) : Prop := s.data.map Char.toLower = w.data

instance (s w : String) : Decidable (eqIgnoreCase s w) := inferInstanceAs (Decidable (_ = _))

/-- The task label as it is printed: a dash when it is empty. -/
def taskOrDash (t : String) : String := if t = "" then "-" else t

/-- Each value preceded by a single space. -/
def spaced (vs : List String) : String := String.join (vs.map fun v => " " ++ v)

/-- Two logger variables of a calling program: `l`, and a logger `d` derived
from it.  A `Logger` is a struct value, so each variable holds its own copy
of the fields. -/
structure Vars where
  l : Logger
  d : Logger
deriving DecidableEq, Repr

/-- The statement `d := l.NewWithTaskName(taskName)`: the value receiver is a
copy, so the variable `l` keeps its value. -/
def Vars.derive (l : Logger) (taskName : String) : Vars :=
  { l := l, d := l.NewWithTaskName taskName }

/-- The statement `l.ResetLevel(level)`: the pointer receiver is the variable
`l`, and only its `level` field is assigned. -/
def Vars.resetL (v : Vars) (level : Level) : Vars :=
  { v with l := v.l.ResetLevel level }

/-- One call of a convenience method: which method, what the surroundings
answer during the call, and the arguments. -/
structure Call where
  m : Method
  env : Env
  args : List String

/-- A sequence of convenience-method calls on `l`, one after the other; a
panic ends the run. -/
def Logger.run (l : Logger) : List Call → World → Except String Unit × World
  | [], w => (.ok (), w)
  | k :: ks, w =>
    match l.emit k.m k.env k.args w with
    | (.ok _, w1) => l.run ks w1
    | (.error e, w1) => (.error e, w1)

/-- The caller location printed for a call: what `GetCaller` returns. -/
def locationOf (env : Env) (skipCallDepth : Int) : String :=
  match GetCaller env skipCallDepth with
  | .ok c => c
  | .error _ => ""

/-- The line a convenience-method call of `l` is expected to put in the sink:
the time stamp, the task label or a dash, the caller location, the tag of the
method, and the values, each preceded by a space, then a newline. -/
def lineOf (l : Logger) (k : Call) : String :=
  k.env.stamp ++ taskOrDash l.task ++ " " ++ locationOf k.env l.skipCallDepth ++ " " ++
    k.m.tag ++ spaced k.args ++ "\n"

/-- The surroundings of a call made from line `line` of `log_test.go`, three
frames above `GetCaller`. -/
def testEnv (line : Int) : Env :=
  { caller := fun d => if d = 3 then some ("/root/go/src/log/log_test.go", line) else none
    stamp := "2024/01/02 03:04:05.000006 "
    openFile := fun _ => .error "permission denied"
    closeErr := fun _ => none }

/-- The five convenience-method calls of `TestLogger`, in order. -/
def testCalls : List Call :=
  [ { m := .Info, env := testEnv 88, args := ["aaaaa"] },
    { m := .Warn, env := testEnv 89, args := ["bbbbb"] },
    { m := .Error, env := testEnv 90, args := ["ccccc"] },
    { m := .Debug, env := testEnv 91, args := ["ccccc"] },
    { m := .Fatal, env := testEnv 92, args := ["ddddd"] } ]

/-- The statement `l.ReopenLogFile()`: the pointer receiver is the variable
`l`; the variable `d` is not touched.  A panic leaves both variables as they
were. -/
def Vars.reopenL (v : Vars) (env : Env) (w : World) : Except String Vars × World :=
  match v.l.ReopenLogFile env w with
  | (.ok l1, w1) => (.ok { v with l := l1 }, w1)
  | (.error e, w1) => (.error e, w1)

/-- Surroundings in which `os.OpenFile` succeeds and returns the file `f`. -/
def fileEnv (f : Handle) : Env :=
  { testEnv 1 with openFile := fun _ => .ok f }

/-- Surroundings in which every caller frame resolves to a bare file name. -/
def bareEnv : Env :=
  { testEnv 1 with caller := fun _ => some ("<autogenerated>", 1) }

/-- Three convenience-method calls, the second made from a frame whose file
name has no slash. -/
def bareCalls : List Call :=
  [ { m := .Info, env := testEnv 88, args := ["aaaaa"] },
    { m := .Warn, env := bareEnv, args := ["bbbbb"] },
    { m := .Error, env := testEnv 90, args := ["ccccc"] } ]

/-! ## Lemmas on the standard library pieces -/

theorem upper_iff (c : Char) : ('A' ≤ c ∧ c ≤ 'Z') ↔ (c.toNat ≥ 65 ∧ c.toNat ≤ 90) := by
  have h1 : ('A' ≤ c) ↔ 65 ≤ c.toNat := by
    show ('A'.val ≤ c.val) ↔ _
    rw [UInt32.le_def]
    rfl
  have h2 : (c ≤ 'Z') ↔ c.toNat ≤ 90 := by
    show (c.val ≤ 'Z'.val) ↔ _
    rw [UInt32.le_def]
    rfl
  rw [h1, h2]

theorem toLowerRune_eq (c : Char) :
    toLowerRune c =
      if c = Char.ofNat 0x130 then 'i' else if c = Char.ofNat 0x212A then 'k' else c.toLower := by
  unfold toLowerRune Char.toLower
  by_cases hu : c.toNat ≥ 65 ∧ c.toNat ≤ 90
  · have hu2 := (upper_iff c).2 hu
    have h1 : c ≠ Char.ofNat 0x130 := by
      rintro rfl; revert hu; decide
    have h2 : c ≠ Char.ofNat 0x212A := by
      rintro rfl; revert hu; decide
    simp [hu, hu2, h1, h2]
  · have hu2 : ¬ ('A' ≤ c ∧ c ≤ 'Z') := fun h => hu ((upper_iff c).1 h)
    simp [hu, hu2]

theorem toLowerRune_of_ascii (c : Char) (h : c.toLower.toNat < 128) :
    toLowerRune c = c.toLower := by
  rw [toLowerRune_eq]
  by_cases h1 : c = Char.ofNat 0x130
  · subst h1; revert h; decide
  · by_cases h2 : c = Char.ofNat 0x212A
    · subst h2; revert h; decide
    · simp [h1, h2]

theorem toLower_of_rune (c : Char) (hi : toLowerRune c ≠ 'i') (hk : toLowerRune c ≠ 'k') :
    c.toLower = toLowerRune c := by
  rw [toLowerRune_eq] at hi hk ⊢
  by_cases h1 : c = Char.ofNat 0x130
  · simp [h1] at hi
  · by_cases h2 : c = Char.ofNat 0x212A
    · simp [h1, h2] at hk
    · simp [h1, h2]

theorem map_transfer {f g : Char → Char} {P : Char → Prop} (h : ∀ c, P (f c) → g c = f c)
    (l m : List Char) (hm : l.map f = m) (hP : ∀ x ∈ m, P x) : l.map g = m := by
  subst hm
  apply List.map_congr_left
  intro c hc
  exact h c (hP _ (List.mem_map_of_mem f hc))

theorem ToLower_of_eqIgnoreCase (s w : String) (hw : ∀ x ∈ w.data, x.toNat < 128)
    (h : eqIgnoreCase s w) : ToLower s = w := by
  have := map_transfer (f := Char.toLower) (g := toLowerRune) (P := fun x => x.toNat < 128)
    toLowerRune_of_ascii s.data w.data h hw
  unfold ToLower
  rw [this]

theorem eqIgnoreCase_of_ToLower (s w : String) (hw : ∀ x ∈ w.data, x ≠ 'i' ∧ x ≠ 'k')
    (h : ToLower s = w) : eqIgnoreCase s w := by
  have hd : s.data.map toLowerRune = w.data := by rw [← h]; rfl
  exact map_transfer (f := toLowerRune) (g := Char.toLower) (P := fun x => x ≠ 'i' ∧ x ≠ 'k')
    (fun c hc => toLower_of_rune c hc.1 hc.2) s.data w.data hd hw

/-- The predicate `eqIgnoreCase` agrees with comparing `String.toLower s`. -/
theorem eqIgnoreCase_iff_toLower (s w : String) : eqIgnoreCase s w ↔ s.toLower = w := by
  unfold eqIgnoreCase String.toLower
  rw [String.map_eq, String.ext_iff]

theorem length_eq_zero_iff (t : String) : t.length = 0 ↔ t = "" := by
  constructor
  · intro h
    apply String.ext
    exact List.length_eq_zero.1 h
  · rintro rfl
    rfl

theorem join_cons (a : String) (l : List String) : String.join (a :: l) = a ++ String.join l := by
  apply String.ext
  simp [String.data_join]

theorem doPrintln_succ (n : Nat) (vs : List String) : doPrintln (n + 1) vs = spaced vs := by
  induction vs generalizing n with
  | nil => rfl
  | cons v vs ih =>
    unfold spaced at ih ⊢
    rw [doPrintln, ih, List.map_cons, join_cons]
    simp

theorem Sprintln_cons (a : String) (vs : List String) :
    Sprintln (a :: vs) = a ++ spaced vs ++ "\n" := by
  unfold Sprintln
  rw [doPrintln, doPrintln_succ]
  simp

theorem spaced_cons (v : String) (vs : List String) : spaced (v :: vs) = " " ++ v ++ spaced vs := by
  unfold spaced
  rw [List.map_cons, join_cons]

theorem intercalate_go (acc : String) (vs : List String) :
    String.intercalate.go acc " " vs = acc ++ spaced vs := by
  induction vs generalizing acc with
  | nil => simp [String.intercalate.go, spaced, String.join]
  | cons v vs ih =>
    rw [String.intercalate.go, ih, spaced_cons]
    simp [String.append_assoc]

theorem Sprintln_eq_intercalate (vs : List String) :
    Sprintln vs = String.intercalate " " vs ++ "\n" := by
  cases vs with
  | nil => rfl
  | cons v vs => rw [Sprintln_cons, String.intercalate, intercalate_go]

theorem prefixArray_ok (env : Env) (t : String) (d : Int) (c : String)
    (h : GetCaller env d = .ok c) : prefixArray env t d = .ok [taskOrDash t, c] := by
  unfold prefixArray taskOrDash
  simp only [h, length_eq_zero_iff]

theorem prefixArray_error (env : Env) (t : String) (d : Int) (e : String)
    (h : GetCaller env d = .error e) : prefixArray env t d = .error e := by
  unfold prefixArray
  simp only [h]

theorem tagged_ok (l : Logger) (env : Env) (tag : String) (args : List String) (w : World)
    (c : String) (h : GetCaller env l.skipCallDepth = .ok c) :
    l.tagged env tag args w =
      (.ok (), l.logger.Println env (taskOrDash l.task :: c :: tag :: args) w) := by
  unfold Logger.tagged
  rw [prefixArray_ok env l.task _ c h]
  rfl

theorem tagged_error (l : Logger) (env : Env) (tag : String) (args : List String) (w : World)
    (e : String) (h : GetCaller env l.skipCallDepth = .error e) :
    l.tagged env tag args w = (.error e, w) := by
  unfold Logger.tagged
  rw [prefixArray_error env l.task _ e h]

theorem emit_eq (l : Logger) (m : Method) (env : Env) (args : List String) (w : World) :
    l.emit m env args w =
      if l.level < m.severity then (.ok (), w) else l.tagged env m.tag args w := by
  cases m <;> rfl

theorem wired_Println (l : Logger) (hl : l.wired) (env : Env) (args : List String) (w : World) :
    l.logger.Println env args w = w.record (.write l.out (env.stamp ++ Sprintln args)) := by
  unfold Logger.wired at hl
  rw [hl]
  simp [StdLogger.Println, New]

/-- The constructor `NewLogger` binds the line writer to the sink. -/
theorem NewLogger_wired (out : WriteCloser) (logLevel : Level) : (NewLogger out logLevel).wired :=
  rfl

/-- Deriving a logger keeps the line writer bound to the sink. -/
theorem NewWithTaskName_wired (l : Logger) (hl : l.wired) (taskName : String) :
    (l.NewWithTaskName taskName).wired := hl

/-- Changing the level keeps the line writer bound to the sink. -/
theorem ResetLevel_wired (l : Logger) (hl : l.wired) (level : Level) :
    (l.ResetLevel level).wired := hl

/-- Changing the skip depth keeps the line writer bound to the sink. -/
theorem SetSkipCallDepth_wired (l : Logger) (hl : l.wired) (depth : Int) :
    (l.SetSkipCallDepth depth).wired := hl

/-- A logger returned by `NewFileLogger` has its line writer bound to the file. -/
theorem NewFileLogger_wired (env : Env) (path : String) (logLevel : Level) (l : Logger)
    (h : NewFileLogger env path logLevel = .ok l) : l.wired := by
  unfold NewFileLogger at h
  cases hf : env.openFile path with
  | error e => rw [hf] at h; cases h
  | ok f =>
    rw [hf] at h
    cases h
    rfl

/-- Reopening the log file keeps the line writer bound to the sink. -/
theorem ReopenLogFile_wired (l : Logger) (hl : l.wired) (env : Env) (w : World) (l1 : Logger)
    (h : (l.ReopenLogFile env w).1 = .ok l1) : l1.wired := by
  unfold Logger.ReopenLogFile at h
  by_cases hp : l.filePath.length = 0
  · rw [if_pos hp] at h
    cases h
    exact hl
  · rw [if_neg hp] at h
    cases hf : env.openFile l.filePath with
    | error e => rw [hf] at h; cases h
    | ok f =>
      rw [hf] at h
      cases h
      rfl

theorem emit_pass (l : Logger) (m : Method) (env : Env) (args : List String) (w : World)
    (c : String) (hle : m.severity ≤ l.level) (hc : GetCaller env l.skipCallDepth = .ok c) :
    l.emit m env args w =
      (.ok (), l.logger.Println env (taskOrDash l.task :: c :: m.tag :: args) w) := by
  rw [emit_eq, if_neg (not_lt.2 hle), tagged_ok l env _ args w c hc]

theorem emit_suppressed (l : Logger) (m : Method) (env : Env) (args : List String) (w : World)
    (hlt : l.level < m.severity) : l.emit m env args w = (.ok (), w) := by
  rw [emit_eq, if_pos hlt]

/-- A panic of the caller lookup leaves `Log` without a write. -/
theorem Log_error (l : Logger) (env : Env) (level : Level) (d : Int) (args : List String)
    (w : World) (e : String) (hc : GetCaller env d = .error e) :
    l.Log env level d args w = (.error e, w) := by
  unfold Logger.Log
  rw [prefixArray_error env l.task d e hc]

/-- At one of the five named levels `Log` filters and tags as the matching
convenience method does. -/
theorem Log_named (l : Logger) (m : Method) (env : Env) (d : Int) (args : List String)
    (w : World) (c : String) (hc : GetCaller env d = .ok c) :
    l.Log env m.severity d args w =
      if l.level < m.severity then (.ok (), w)
      else (.ok (), l.logger.Println env (taskOrDash l.task :: c :: m.tag :: args) w) := by
  unfold Logger.Log
  rw [prefixArray_ok env l.task d c hc]
  cases m <;> simp [Method.severity, Method.tag]

/-- At a level outside the five named ones `Log` writes the line without a
tag, whatever the configured level. -/
theorem Log_unnamed (l : Logger) (env : Env) (level : Int) (d : Int) (args : List String)
    (w : World) (c : String) (h : level < 0 ∨ 4 < level) (hc : GetCaller env d = .ok c) :
    l.Log env level d args w =
      (.ok (), l.logger.Println env (taskOrDash l.task :: c :: args) w) := by
  have h0 : level ≠ 0 := by omega
  have h1 : level ≠ 1 := by omega
  have h2 : level ≠ 2 := by omega
  have h3 : level ≠ 3 := by omega
  have h4 : level ≠ 4 := by omega
  unfold Logger.Log
  rw [prefixArray_ok env l.task d c hc]
  simp [h0, h1, h2, h3, h4]

theorem record_ne (w : World) (c : SinkCall) : w.record c ≠ w := by
  intro h
  have := congrArg (fun x => x.calls.length) h
  simp [World.record] at this

theorem Println_ne (lg : StdLogger) (env : Env) (args : List String) (w : World) :
    lg.Println env args w ≠ w := record_ne w _

theorem written_append (w : World) (s : WriteCloser) (cs : List SinkCall) :
    World.written { calls := w.calls ++ cs } s =
      w.written s ++ World.written { calls := cs } s := by
  simp [World.written, List.filterMap_append]

theorem written_map_write (s : WriteCloser) (ps : List String) :
    World.written { calls := ps.map fun p => SinkCall.write s p } s = ps := by
  induction ps with
  | nil => rfl
  | cons p ps ih =>
    simp only [World.written, List.map_cons, List.filterMap_cons] at ih ⊢
    simp [ih]

/-- A run of convenience-method calls on a logger at `DebugLevel` appends one
`Write` per call to the sink, in call order. -/
theorem run_calls (l : Logger) (hl : l.wired) (hlevel : l.level = DebugLevel) (calls : List Call)
    (hcalls : ∀ k ∈ calls, ∃ c, GetCaller k.env l.skipCallDepth = .ok c) (w : World) :
    l.run calls w =
      (.ok (), { calls := w.calls ++ calls.map fun k => SinkCall.write l.out (lineOf l k) }) := by
  induction calls generalizing w with
  | nil => simp [Logger.run]
  | cons k ks ih =>
    obtain ⟨c, hc⟩ := hcalls k (List.mem_cons_self _ _)
    have hle : k.m.severity ≤ l.level := by
      rw [hlevel]; cases k.m <;> decide
    have hk := emit_pass l k.m k.env k.args w c hle hc
    rw [wired_Println l hl] at hk
    unfold Logger.run
    rw [hk]
    simp only
    rw [ih (fun k hk => hcalls k (List.mem_cons_of_mem _ hk))]
    have hline : lineOf l k =
        k.env.stamp ++ Sprintln (taskOrDash l.task :: c :: k.m.tag :: k.args) := by
      unfold lineOf locationOf
      rw [hc, Sprintln_cons, spaced_cons, spaced_cons]
      simp [String.append_assoc]
    simp [World.record, hline]

theorem splitOn_append_sep (l rest : List Char) :
    (l ++ '/' :: rest).splitOn '/' = l.splitOn '/' ++ rest.splitOn '/' := by
  unfold List.splitOn
  induction l with
  | nil => simp
  | cons x l ih =>
    rw [List.cons_append, List.splitOnP_cons, List.splitOnP_cons, ih]
    by_cases hx : (x == '/') = true
    · rw [if_pos hx, if_pos hx]
      rfl
    · rw [if_neg hx, if_neg hx]
      cases h : List.splitOnP (fun c => c == '/') l with
      | nil => exact absurd h (List.splitOnP_ne_nil _ _)
      | cons a as => rfl

theorem splitOn_no_sep (l : List Char) (h : '/' ∉ l) : l.splitOn '/' = [l] := by
  unfold List.splitOn
  apply List.splitOnP_eq_single
  intro x hx hp
  rw [beq_iff_eq] at hp
  subst hp
  exact h hx

theorem last_sep (xs : List Char) (h : '/' ∈ xs) :
    ∃ a b, xs = a ++ '/' :: b ∧ '/' ∉ b := by
  have hr : '/' ∈ xs.reverse := List.mem_reverse.2 h
  obtain ⟨as, bs, hab, hna⟩ := List.eq_append_cons_of_mem hr
  refine ⟨bs.reverse, as.reverse, ?_, ?_⟩
  · have := congrArg List.reverse hab
    simpa using this
  · simpa using hna

/-- A path with a slash ends in two components separated by its last slash. -/
theorem parts_of_slash (xs : List Char) (h : '/' ∈ xs) :
    ∃ dir base, '/' ∉ dir ∧ '/' ∉ base ∧
      (xs = dir ++ '/' :: base ∨ ∃ q, xs = q ++ '/' :: (dir ++ '/' :: base)) := by
  obtain ⟨a, base, hx, hb⟩ := last_sep xs h
  by_cases ha : '/' ∈ a
  · obtain ⟨q, dir, hq, hd⟩ := last_sep a ha
    refine ⟨dir, base, hd, hb, Or.inr ⟨q, ?_⟩⟩
    rw [hx, hq]; simp
  · exact ⟨a, base, ha, hb, Or.inl hx⟩

/-- The split of a path ends in its last two components. -/
theorem splitOn_of_parts (xs dir base : List Char) (hd : '/' ∉ dir) (hb : '/' ∉ base)
    (hx : xs = dir ++ '/' :: base ∨ ∃ q, xs = q ++ '/' :: (dir ++ '/' :: base)) :
    ∃ front, xs.splitOn '/' = front ++ [dir, base] := by
  rcases hx with hx | ⟨q, hx⟩
  · refine ⟨[], ?_⟩
    rw [hx, splitOn_append_sep, splitOn_no_sep base hb, splitOn_no_sep dir hd]
    rfl
  · refine ⟨q.splitOn '/', ?_⟩
    rw [hx, splitOn_append_sep, splitOn_append_sep, splitOn_no_sep base hb,
      splitOn_no_sep dir hd]
    rfl

theorem get?_penultimate (xs : List String) (a b : String) :
    (xs ++ [a, b]).get? xs.length = some a := by
  induction xs with
  | nil => rfl
  | cons x xs ih => exact ih

theorem get?_last (xs : List String) (a b : String) :
    (xs ++ [a, b]).get? (xs.length + 1) = some b := by
  induction xs with
  | nil => rfl
  | cons x xs ih => exact ih

theorem index_penultimate (xs : List String) (a b : String) :
    index (xs ++ [a, b]) (((xs ++ [a, b]).length : Int) - 2) = .ok a := by
  have hlen : (((xs ++ [a, b]).length : Int) - 2) = (xs.length : Int) := by
    simp
  rw [hlen]
  unfold index
  have hneg : ¬ ((xs.length : Int) < 0) := by omega
  have hget : (xs ++ [a, b]).get? (xs.length : Int).toNat = some a := by
    rw [Int.toNat_ofNat]
    exact get?_penultimate xs a b
  rw [if_neg hneg, hget]

theorem index_last (xs : List String) (a b : String) :
    index (xs ++ [a, b]) (((xs ++ [a, b]).length : Int) - 1) = .ok b := by
  have hlen : (((xs ++ [a, b]).length : Int) - 1) = ((xs.length + 1 : Nat) : Int) := by
    simp; omega
  rw [hlen]
  unfold index
  have hneg : ¬ (((xs.length + 1 : Nat) : Int) < 0) := by omega
  have hget : (xs ++ [a, b]).get? ((xs.length + 1 : Nat) : Int).toNat = some b := by
    rw [Int.toNat_ofNat]
    exact get?_last xs a b
  rw [if_neg hneg, hget]

theorem GetCaller_of_parts (env : Env) (d : Int) (p : String) (n : Int)
    (front : List (List Char)) (dir base : List Char)
    (hres : env.caller d = some (p, n))
    (hs : p.data.splitOn '/' = front ++ [dir, base]) :
    GetCaller env d = .ok (String.mk dir ++ "/" ++ String.mk base ++ ":" ++ toString n) := by
  unfold GetCaller
  rw [hres]
  have hsp : Split p = front.map String.mk ++ [String.mk dir, String.mk base] := by
    unfold Split
    rw [hs]
    simp
  simp only [hsp, index_penultimate, index_last]

theorem GetCaller_of_bare (env : Env) (d : Int) (p : String) (n : Int)
    (hres : env.caller d = some (p, n)) (hp : '/' ∉ p.data) :
    GetCaller env d = .error "runtime error: index out of range" := by
  unfold GetCaller
  rw [hres]
  have hsp : Split p = [p] := by
    unfold Split
    rw [splitOn_no_sep p.data hp]
    rfl
  simp only [hsp]
  rfl

theorem GetCaller_unresolved (env : Env) (d : Int) (hres : env.caller d = none) :
    GetCaller env d = .ok "" := by
  unfold GetCaller
  rw [hres]

/-- The world after closing a sink: one more `Close` call on it. -/
theorem Close_world (s : WriteCloser) (env : Env) (w : World) :
    (s.Close env w).2 = w.record (.close s) := by
  cases s <;> rfl

/-- Without a recorded file path `ReopenLogFile` returns at once. -/
theorem ReopenLogFile_empty (l : Logger) (env : Env) (w : World) (h : l.filePath = "") :
    l.ReopenLogFile env w = (.ok l, w) := by
  unfold Logger.ReopenLogFile
  rw [if_pos ((length_eq_zero_iff _).2 h)]

/-- With a recorded file path and a successful open `ReopenLogFile` swaps the
sink and the line writer and closes the old sink. -/
theorem ReopenLogFile_open (l : Logger) (env : Env) (w : World) (f : Handle)
    (hp : l.filePath ≠ "") (ho : env.openFile l.filePath = .ok f) :
    l.ReopenLogFile env w =
      (.ok { l with out := .handle f, logger := New (.handle f) "" logFlags },
        w.record (.close l.out)) := by
  unfold Logger.ReopenLogFile
  rw [if_neg (fun h => hp ((length_eq_zero_iff _).1 h)), ho]
  simp only [Close_world]

/-- A `Close` call on a `CloseBuffer` leaves its buffer empty. -/
theorem String_after_close (w : World) (buf : Handle) :
    CloseBuffer.String (w.record (.close (.closeBuffer buf))) buf = "" := by
  unfold CloseBuffer.String World.record
  simp [List.foldl_append]


/-! ## Level filtering of the convenience methods -/

/-- Level filtering where the caller lookup returns: on a logger whose line
writer is bound to its sink, a convenience method of severity `S` appends
exactly one `Write` (one line) to the sink when `S ≤ C` and the caller
location is obtained, and leaves the world as it was when `S > C`, for every
configured level `C`. -/
theorem emit_filter (l : Logger) (hl : l.wired) (m : Method) (env : Env) (args : List String)
    (w : World) :
    (m.severity ≤ l.level → ∀ c, GetCaller env l.skipCallDepth = .ok c →
      l.emit m env args w =
        (.ok (), w.record (.write l.out
          (env.stamp ++ Sprintln (taskOrDash l.task :: c :: m.tag :: args))))) ∧
    (l.level < m.severity → l.emit m env args w = (.ok (), w)) := by
  constructor
  · intro hle c hc
    rw [emit_pass l m env args w c hle hc, wired_Println l hl]
  · intro hlt
    exact emit_suppressed l m env args w hlt

/-- The `WarnLevel` logger of `TestLogLevel`: `Error` is written, `Info` is not. -/
theorem emit_filter_witness :
    (NewLogger (.closeBuffer 0) WarnLevel).emit .Error (testEnv 170) ["ccc"] ⟨[]⟩ =
      (.ok (), ⟨[.write (.closeBuffer 0)
        "2024/01/02 03:04:05.000006 - log/log_test.go:170 [ERROR] ccc\n"]⟩) ∧
    (NewLogger (.closeBuffer 0) WarnLevel).emit .Info (testEnv 168) ["aaa"] ⟨[]⟩ =
      (.ok (), ⟨[]⟩) :=
  ⟨(emit_filter (NewLogger (.closeBuffer 0) WarnLevel) (by decide) .Error (testEnv 170)
      ["ccc"] ⟨[]⟩).1 (by decide) "log/log_test.go:170" (by rfl),
   (emit_filter (NewLogger (.closeBuffer 0) WarnLevel) (by decide) .Info (testEnv 168)
      ["aaa"] ⟨[]⟩).2 (by decide)⟩

/-- Claim C1, at a failing input: on a logger at `WarnLevel`, `Error`
(severity 1, not above the configured level 2) called from a frame whose
file name has no slash panics in the caller lookup and writes nothing to the
sink, where the claim has exactly one line written. -/
theorem emit_bare_frame_writes_nothing :
    ErrorLevel ≤ WarnLevel ∧
    bareEnv.caller 3 = some ("<autogenerated>", 1) ∧
    (NewLogger (.closeBuffer 0) WarnLevel).emit .Error bareEnv ["ccc"] ⟨[]⟩ =
      (.error "runtime error: index out of range", ⟨[]⟩) ∧
    World.written ((NewLogger (.closeBuffer 0) WarnLevel).emit .Error bareEnv ["ccc"] ⟨[]⟩).2
      (.closeBuffer 0) = [] :=
  ⟨by decide, rfl, rfl, rfl⟩

/-! ## Level parsing -/

/-- Claim C2: `ParseLevel` is a total function; it returns the level named by `s`
when `s` is one of the five names up to letter case, and `InfoLevel` for
every other string. -/
theorem ParseLevel_spec (s : String) :
    (eqIgnoreCase s "debug" → ParseLevel s = DebugLevel) ∧
    (eqIgnoreCase s "info" → ParseLevel s = InfoLevel) ∧
    (eqIgnoreCase s "warn" → ParseLevel s = WarnLevel) ∧
    (eqIgnoreCase s "error" → ParseLevel s = ErrorLevel) ∧
    (eqIgnoreCase s "fatal" → ParseLevel s = FatalLevel) ∧
    (¬ eqIgnoreCase s "debug" → ¬ eqIgnoreCase s "info" → ¬ eqIgnoreCase s "warn" →
      ¬ eqIgnoreCase s "error" → ¬ eqIgnoreCase s "fatal" → ParseLevel s = InfoLevel) := by
  refine ⟨?_, ?_, ?_, ?_, ?_, ?_⟩
  · intro h
    have := ToLower_of_eqIgnoreCase s "debug" (by decide) h
    simp [ParseLevel, this]
  · intro h
    have := ToLower_of_eqIgnoreCase s "info" (by decide) h
    simp [ParseLevel, this]
  · intro h
    have := ToLower_of_eqIgnoreCase s "warn" (by decide) h
    simp [ParseLevel, this]
  · intro h
    have := ToLower_of_eqIgnoreCase s "error" (by decide) h
    simp [ParseLevel, this]
  · intro h
    have := ToLower_of_eqIgnoreCase s "fatal" (by decide) h
    simp [ParseLevel, this]
  · intro hd _ hw he hf
    have nd : ToLower s ≠ "debug" := fun h => hd (eqIgnoreCase_of_ToLower s "debug" (by decide) h)
    have nw : ToLower s ≠ "warn" := fun h => hw (eqIgnoreCase_of_ToLower s "warn" (by decide) h)
    have ne : ToLower s ≠ "error" := fun h => he (eqIgnoreCase_of_ToLower s "error" (by decide) h)
    have nf : ToLower s ≠ "fatal" := fun h => hf (eqIgnoreCase_of_ToLower s "fatal" (by decide) h)
    simp [ParseLevel, nd, nw, ne, nf]

/-- The cases of `TestParseLevel`, and the empty string. -/
theorem ParseLevel_spec_witness :
    ParseLevel "DeBug" = DebugLevel ∧ ParseLevel "info" = InfoLevel ∧
    ParseLevel "WARN" = WarnLevel ∧ ParseLevel "eRRor" = ErrorLevel ∧
    ParseLevel "fatal" = FatalLevel ∧ ParseLevel "log" = InfoLevel ∧ ParseLevel "" = InfoLevel :=
  ⟨(ParseLevel_spec "DeBug").1 (by decide), (ParseLevel_spec "info").2.1 (by decide),
   (ParseLevel_spec "WARN").2.2.1 (by decide), (ParseLevel_spec "eRRor").2.2.2.1 (by decide),
   (ParseLevel_spec "fatal").2.2.2.2.1 (by decide),
   (ParseLevel_spec "log").2.2.2.2.2 (by decide) (by decide) (by decide) (by decide) (by decide),
   (ParseLevel_spec "").2.2.2.2.2 (by decide) (by decide) (by decide) (by decide) (by decide)⟩

/-! ## The text of a line -/

/-- Claim C3: when a convenience method passes the level filter and the caller
location is `c`, the operands handed to the line writer are the task label
(or a dash), `c`, the tag and the values, and their `Sprintln` text is the
label or dash, a space, `c`, a space, the tag, each value preceded by a
space, and one newline. -/
theorem emit_text (l : Logger) (m : Method) (env : Env) (c : String) (vs : List String)
    (w : World) (hpass : m.severity ≤ l.level) (hc : GetCaller env l.skipCallDepth = .ok c) :
    l.emit m env vs w =
      (.ok (), l.logger.Println env (taskOrDash l.task :: c :: m.tag :: vs) w) ∧
    Sprintln (taskOrDash l.task :: c :: m.tag :: vs) =
      (if l.task = "" then "-" else l.task) ++ " " ++ c ++ " " ++ m.tag ++ spaced vs ++ "\n" := by
  constructor
  · exact emit_pass l m env vs w c hpass hc
  · rw [Sprintln_cons, spaced_cons, spaced_cons]
    simp [taskOrDash, String.append_assoc]

/-- The first call of `TestLogger`, with a second value added. -/
theorem emit_text_witness :
    (NewLogger (.closeBuffer 0) DebugLevel).emit .Info (testEnv 88) ["aaaaa", "b"] ⟨[]⟩ =
      (.ok (), (NewLogger (.closeBuffer 0) DebugLevel).logger.Println (testEnv 88)
        ["-", "log/log_test.go:88", "[INFO]", "aaaaa", "b"] ⟨[]⟩) ∧
    Sprintln ["-", "log/log_test.go:88", "[INFO]", "aaaaa", "b"] =
      "- log/log_test.go:88 [INFO] aaaaa b\n" :=
  emit_text (NewLogger (.closeBuffer 0) DebugLevel) .Info (testEnv 88) "log/log_test.go:88"
    ["aaaaa", "b"] ⟨[]⟩ (by decide) (by rfl)

/-! ## The generic entry point -/

/-- Claim C4, at a failing input: a logger at `DebugLevel` asked to `Log` at
level 5, which is above the configured level, still writes a line to the
sink; the line carries no tag. -/
theorem Log_unnamed_level_writes :
    DebugLevel < (5 : Level) ∧
    (NewLogger (.closeBuffer 0) DebugLevel).Log (testEnv 123) 5 3 ["x"] ⟨[]⟩ =
      (.ok (), ⟨[.write (.closeBuffer 0)
        "2024/01/02 03:04:05.000006 - log/log_test.go:123 x\n"]⟩) :=
  ⟨by decide, rfl⟩

/-- Claim C5: for each of the five named severities, `Log` called with the
logger's own skip depth leaves the same world as the matching convenience
method: either both leave it untouched, or both append the same single line
(same label or dash, same caller location, same tag, same values). -/
theorem Log_same_as_method (l : Logger) (m : Method) (env : Env) (args : List String)
    (w : World) :
    (l.Log env m.severity l.skipCallDepth args w).2 = (l.emit m env args w).2 ∧
    ((l.emit m env args w).2 = w ∨
      ∃ c, GetCaller env l.skipCallDepth = .ok c ∧
        (l.emit m env args w).2 =
          l.logger.Println env (taskOrDash l.task :: c :: m.tag :: args) w) := by
  rw [emit_eq]
  cases hc : GetCaller env l.skipCallDepth with
  | error e =>
    rw [Log_error l env _ _ args w e hc, tagged_error l env _ args w e hc]
    by_cases hlt : l.level < m.severity <;> simp [hlt]
  | ok c =>
    rw [Log_named l m env _ args w c hc, tagged_ok l env _ args w c hc]
    by_cases hlt : l.level < m.severity <;> simp [hlt]

/-! ## Derived loggers and level changes -/

/-- Claim C6: `NewWithTaskName` returns a logger with the sink, line writer,
level and skip depth of `l` and the given label, and the variable `l` keeps
its value; a line of the derived logger starts with the label, a line of `l`
with the task label of `l`, or a dash when it has none. -/
theorem NewWithTaskName_frame (l : Logger) (label : String) :
    (l.NewWithTaskName label).out = l.out ∧
    (l.NewWithTaskName label).logger = l.logger ∧
    (l.NewWithTaskName label).level = l.level ∧
    (l.NewWithTaskName label).skipCallDepth = l.skipCallDepth ∧
    (l.NewWithTaskName label).task = label ∧
    (Vars.derive l label).l = l ∧
    (∀ (m : Method) (env : Env) (args : List String) (w : World) (c : String),
      m.severity ≤ l.level → GetCaller env l.skipCallDepth = .ok c →
        (Vars.derive l label).d.emit m env args w =
          (.ok (), l.logger.Println env (taskOrDash label :: c :: m.tag :: args) w) ∧
        (∃ rest, Sprintln (taskOrDash label :: c :: m.tag :: args) = label ++ rest) ∧
        (Vars.derive l label).l.emit m env args w =
          (.ok (), l.logger.Println env (taskOrDash l.task :: c :: m.tag :: args) w) ∧
        (∃ rest, Sprintln (taskOrDash l.task :: c :: m.tag :: args) =
          (if l.task = "" then "-" else l.task) ++ rest)) := by
  refine ⟨rfl, rfl, rfl, rfl, rfl, rfl, ?_⟩
  intro m env args w c hle hc
  refine ⟨?_, ?_, ?_, ?_⟩
  · exact emit_pass (l.NewWithTaskName label) m env args w c hle hc
  · rw [Sprintln_cons]
    by_cases hl : label = ""
    · subst hl
      exact ⟨_, (String.empty_append _).symm⟩
    · refine ⟨spaced (c :: m.tag :: args) ++ "\n", ?_⟩
      simp [taskOrDash, hl, String.append_assoc]
  · exact emit_pass l m env args w c hle hc
  · rw [Sprintln_cons]
    refine ⟨spaced (c :: m.tag :: args) ++ "\n", ?_⟩
    simp [taskOrDash, String.append_assoc]

/-- The derivation of `TestLogger`: the derived logger prints `request-id`,
the original logger still prints a dash. -/
theorem NewWithTaskName_frame_witness :
    ((NewLogger (.closeBuffer 0) DebugLevel).NewWithTaskName "request-id").emit .Info
        (testEnv 107) ["haha"] ⟨[]⟩ =
      (.ok (), ⟨[.write (.closeBuffer 0)
        "2024/01/02 03:04:05.000006 request-id log/log_test.go:107 [INFO] haha\n"]⟩) ∧
    (NewLogger (.closeBuffer 0) DebugLevel).emit .Info (testEnv 107) ["haha"] ⟨[]⟩ =
      (.ok (), ⟨[.write (.closeBuffer 0)
        "2024/01/02 03:04:05.000006 - log/log_test.go:107 [INFO] haha\n"]⟩) :=
  have h := (NewWithTaskName_frame (NewLogger (.closeBuffer 0) DebugLevel)
    "request-id").2.2.2.2.2.2 .Info (testEnv 107) ["haha"] ⟨[]⟩ "log/log_test.go:107"
    (by decide) (by rfl)
  ⟨h.1, h.2.2.1⟩

/-- Claim C7, refuted as stated: after `l.ResetLevel(FatalLevel)` on a logger
created at `DebugLevel`, the logger derived from it beforehand still writes
an `Info` line, although `InfoLevel` is above the new level. -/
theorem derived_ignores_reset :
    FatalLevel < InfoLevel ∧
    ((Vars.derive (NewLogger (.closeBuffer 0) DebugLevel) "request-id").resetL
      FatalLevel).l.level = FatalLevel ∧
    ((Vars.derive (NewLogger (.closeBuffer 0) DebugLevel) "request-id").resetL
      FatalLevel).d.emit .Info (testEnv 107) ["haha"] ⟨[]⟩ =
      (.ok (), ⟨[.write (.closeBuffer 0)
        "2024/01/02 03:04:05.000006 request-id log/log_test.go:107 [INFO] haha\n"]⟩) :=
  ⟨by decide, rfl, rfl⟩

/-- Claim C7 as amended: after `l.ResetLevel(n)` the level of `l` is `n`, while
a logger derived from `l` beforehand keeps the level `l` had at the
derivation, and its emissions are filtered against that level. -/
theorem derived_keeps_level (l : Logger) (label : String) (n : Level) (m : Method) (env : Env)
    (args : List String) (w : World) :
    ((Vars.derive l label).resetL n).l.level = n ∧
    ((Vars.derive l label).resetL n).d.level = l.level ∧
    (l.level < m.severity →
      ((Vars.derive l label).resetL n).d.emit m env args w = (.ok (), w)) ∧
    (m.severity ≤ l.level → ∀ c, GetCaller env l.skipCallDepth = .ok c →
      ((Vars.derive l label).resetL n).d.emit m env args w =
        (.ok (), l.logger.Println env (taskOrDash label :: c :: m.tag :: args) w)) := by
  refine ⟨rfl, rfl, ?_, ?_⟩
  · intro hlt
    exact emit_suppressed (l.NewWithTaskName label) m env args w hlt
  · intro hle c hc
    exact emit_pass (l.NewWithTaskName label) m env args w c hle hc

/-- A logger derived at `WarnLevel`: raising the original to `DebugLevel` does
not let `Info` through, lowering it to `FatalLevel` does not stop `Warn`. -/
theorem derived_keeps_level_witness :
    ((Vars.derive (NewLogger (.closeBuffer 0) WarnLevel) "t").resetL DebugLevel).d.emit
        .Info (testEnv 10) ["aaa"] ⟨[]⟩ = (.ok (), ⟨[]⟩) ∧
    ((Vars.derive (NewLogger (.closeBuffer 0) WarnLevel) "t").resetL FatalLevel).d.emit
        .Warn (testEnv 11) ["bbb"] ⟨[]⟩ =
      (.ok (), ⟨[.write (.closeBuffer 0)
        "2024/01/02 03:04:05.000006 t log/log_test.go:11 [WARN] bbb\n"]⟩) :=
  ⟨(derived_keeps_level (NewLogger (.closeBuffer 0) WarnLevel) "t" DebugLevel .Info (testEnv 10)
      ["aaa"] ⟨[]⟩).2.2.1 (by decide),
   (derived_keeps_level (NewLogger (.closeBuffer 0) WarnLevel) "t" FatalLevel .Warn (testEnv 11)
      ["bbb"] ⟨[]⟩).2.2.2 (by decide) "log/log_test.go:11" (by rfl)⟩

/-- The frame of `ResetLevel`, and filtering where the caller lookup returns:
`ResetLevel n` sets the level to `n` and keeps the sink, line writer, task
label, skip depth and file path; where the caller location is obtained, the
next emission at a named severity `S`, by a convenience method or by `Log`,
reaches the sink exactly when `S ≤ n`. -/
theorem ResetLevel_frame (l : Logger) (n : Level) :
    (l.ResetLevel n).level = n ∧
    (l.ResetLevel n).out = l.out ∧
    (l.ResetLevel n).logger = l.logger ∧
    (l.ResetLevel n).task = l.task ∧
    (l.ResetLevel n).skipCallDepth = l.skipCallDepth ∧
    (l.ResetLevel n).filePath = l.filePath ∧
    (∀ (m : Method) (env : Env) (args : List String) (w : World) (c : String),
      GetCaller env l.skipCallDepth = .ok c →
        (((l.ResetLevel n).emit m env args w).2 ≠ w ↔ m.severity ≤ n) ∧
        (m.severity ≤ n → (l.ResetLevel n).emit m env args w =
          (.ok (), l.logger.Println env (taskOrDash l.task :: c :: m.tag :: args) w)) ∧
        (n < m.severity → (l.ResetLevel n).emit m env args w = (.ok (), w))) ∧
    (∀ (m : Method) (env : Env) (d : Int) (args : List String) (w : World) (c : String),
      GetCaller env d = .ok c →
        (((l.ResetLevel n).Log env m.severity d args w).2 ≠ w ↔ m.severity ≤ n)) := by
  refine ⟨rfl, rfl, rfl, rfl, rfl, rfl, ?_, ?_⟩
  · intro m env args w c hc
    have hp : m.severity ≤ n → (l.ResetLevel n).emit m env args w =
        (.ok (), l.logger.Println env (taskOrDash l.task :: c :: m.tag :: args) w) :=
      fun hle => emit_pass (l.ResetLevel n) m env args w c hle hc
    have hs : n < m.severity → (l.ResetLevel n).emit m env args w = (.ok (), w) :=
      fun hlt => emit_suppressed (l.ResetLevel n) m env args w hlt
    refine ⟨⟨?_, ?_⟩, hp, hs⟩
    · intro hne
      by_contra hnot
      exact hne (by rw [hs (not_le.1 hnot)])
    · intro hle
      rw [hp hle]
      exact Println_ne _ _ _ _
  · intro m env d args w c hc
    rw [Log_named (l.ResetLevel n) m env d args w c hc]
    have hlv : (l.ResetLevel n).level = n := rfl
    rw [hlv]
    by_cases hlt : n < m.severity
    · rw [if_pos hlt]
      constructor
      · intro hne
        exact absurd rfl hne
      · intro hle
        exact absurd hlt (not_lt.2 hle)
    · rw [if_neg hlt]
      constructor
      · intro _
        exact not_lt.1 hlt
      · intro _
        exact Println_ne _ _ _ _

/-- The logger of `TestLogger_ResetLevel`: created at `WarnLevel` and reset to
`FatalLevel`, it no longer writes `Warn` and still writes `Fatal`. -/
theorem ResetLevel_frame_witness :
    ((NewLogger (.closeBuffer 0) WarnLevel).ResetLevel FatalLevel).level = FatalLevel ∧
    ((NewLogger (.closeBuffer 0) WarnLevel).ResetLevel FatalLevel).level ≠ WarnLevel ∧
    ((NewLogger (.closeBuffer 0) WarnLevel).ResetLevel FatalLevel).emit .Warn (testEnv 67)
        ["bbb"] ⟨[]⟩ = (.ok (), ⟨[]⟩) ∧
    ((NewLogger (.closeBuffer 0) WarnLevel).ResetLevel FatalLevel).emit .Fatal (testEnv 68)
        ["ddd"] ⟨[]⟩ =
      (.ok (), ⟨[.write (.closeBuffer 0)
        "2024/01/02 03:04:05.000006 - log/log_test.go:68 [FATAL] ddd\n"]⟩) :=
  have h := ResetLevel_frame (NewLogger (.closeBuffer 0) WarnLevel) FatalLevel
  ⟨h.1, by rw [h.1]; decide,
   (h.2.2.2.2.2.2.1 .Warn (testEnv 67) ["bbb"] ⟨[]⟩ "log/log_test.go:67" (by rfl)).2.2
     (by decide),
   (h.2.2.2.2.2.2.1 .Fatal (testEnv 68) ["ddd"] ⟨[]⟩ "log/log_test.go:68" (by rfl)).2.1
     (by decide)⟩

/-- Claim C8, at two failing inputs.  A logger reset to `DebugLevel` and
asked for `Info` (3 ≤ 4) from a frame whose file name has no slash panics in
the caller lookup and writes nothing.  A logger reset to `FatalLevel` and
asked to `Log` at level 5 (above 0) writes an untagged line. -/
theorem ResetLevel_not_iff :
    ((NewLogger (.closeBuffer 0) WarnLevel).ResetLevel DebugLevel).level = DebugLevel ∧
    InfoLevel ≤ DebugLevel ∧
    ((NewLogger (.closeBuffer 0) WarnLevel).ResetLevel DebugLevel).emit .Info bareEnv ["aaa"]
        ⟨[]⟩ = (.error "runtime error: index out of range", ⟨[]⟩) ∧
    ((NewLogger (.closeBuffer 0) WarnLevel).ResetLevel FatalLevel).level = FatalLevel ∧
    FatalLevel < (5 : Level) ∧
    ((NewLogger (.closeBuffer 0) WarnLevel).ResetLevel FatalLevel).Log (testEnv 66) 5 3 ["x"]
        ⟨[]⟩ =
      (.ok (), ⟨[.write (.closeBuffer 0)
        "2024/01/02 03:04:05.000006 - log/log_test.go:66 x\n"]⟩) :=
  ⟨rfl, by decide, rfl, rfl, by decide, rfl⟩

/-! ## Raw writes and sequences of calls -/

/-- Claim C9: whatever the level and task label of the logger, `Println`
appends one `Write` to the sink whose payload is the values joined by single
spaces and one newline, with no label, location or tag. -/
theorem Println_raw (l : Logger) (vs : List String) (w : World) :
    l.Println vs w = w.record (.write l.out (String.intercalate " " vs ++ "\n")) ∧
    l.Println vs w ≠ w := by
  constructor
  · unfold Logger.Println
    rw [Sprintln_eq_intercalate]
  · exact record_ne w _

/-- Runs in which every caller lookup returns: a run of convenience-method
calls on one logger at `DebugLevel` whose sink has received no write ends
without a panic, and the sink has then received exactly one line per call, in
call order, each line ending in the tag of its call, the values of the call,
and a newline. -/
theorem run_lines (l : Logger) (hl : l.wired) (hlevel : l.level = DebugLevel) (calls : List Call)
    (hcalls : ∀ k ∈ calls, ∃ c, GetCaller k.env l.skipCallDepth = .ok c) (w : World)
    (hempty : w.written l.out = []) :
    (l.run calls w).1 = .ok () ∧
    (l.run calls w).2.calls = w.calls ++ calls.map (fun k => SinkCall.write l.out (lineOf l k)) ∧
    (l.run calls w).2.written l.out = calls.map (lineOf l) ∧
    (∀ k ∈ calls, ∃ head, lineOf l k = head ++ k.m.tag ++ spaced k.args ++ "\n") := by
  rw [run_calls l hl hlevel calls hcalls w]
  refine ⟨rfl, rfl, ?_, ?_⟩
  · simp only
    rw [written_append, hempty, List.nil_append]
    have := written_map_write l.out (calls.map (lineOf l))
    rw [List.map_map] at this
    exact this
  · intro k _
    exact ⟨_, rfl⟩

/-- The five calls of `TestLogger` on an empty buffer give five lines tagged
`[INFO]`, `[WARN]`, `[ERROR]`, `[DEBUG]`, `[FATAL]`, in that order. -/
theorem run_lines_witness :
    ((NewLogger (.closeBuffer 0) DebugLevel).run testCalls ⟨[]⟩).2.written (.closeBuffer 0) =
      ["2024/01/02 03:04:05.000006 - log/log_test.go:88 [INFO] aaaaa\n",
       "2024/01/02 03:04:05.000006 - log/log_test.go:89 [WARN] bbbbb\n",
       "2024/01/02 03:04:05.000006 - log/log_test.go:90 [ERROR] ccccc\n",
       "2024/01/02 03:04:05.000006 - log/log_test.go:91 [DEBUG] ccccc\n",
       "2024/01/02 03:04:05.000006 - log/log_test.go:92 [FATAL] ddddd\n"] :=
  (run_lines (NewLogger (.closeBuffer 0) DebugLevel) (by decide) rfl testCalls
    (by
      simp [testCalls, NewLogger]
      exact ⟨⟨_, rfl⟩, ⟨_, rfl⟩, ⟨_, rfl⟩, ⟨_, rfl⟩, ⟨_, rfl⟩⟩)
    ⟨[]⟩ rfl).2.2.1

/-- Claim C10, at a failing input: three calls on a logger at `DebugLevel`
with an empty sink, the second from a frame whose file name has no slash.
The run ends in the panic of the second call and the sink holds one line for
the three calls. -/
theorem run_bare_frame_stops :
    (NewLogger (.closeBuffer 0) DebugLevel).level = DebugLevel ∧
    bareCalls.length = 3 ∧
    (NewLogger (.closeBuffer 0) DebugLevel).run bareCalls ⟨[]⟩ =
      (.error "runtime error: index out of range",
        ⟨[.write (.closeBuffer 0)
          "2024/01/02 03:04:05.000006 - log/log_test.go:88 [INFO] aaaaa\n"]⟩) ∧
    World.written ((NewLogger (.closeBuffer 0) DebugLevel).run bareCalls ⟨[]⟩).2
      (.closeBuffer 0) =
      ["2024/01/02 03:04:05.000006 - log/log_test.go:88 [INFO] aaaaa\n"] :=
  ⟨rfl, rfl, rfl, rfl⟩

/-! ## The caller location -/

/-- Claim C11: for a resolved frame whose path contains a slash, `GetCaller`
returns the last two slash-separated components of the path joined by a
slash, then a colon and the line number in decimal; for an unresolved frame
it returns the empty string, and a passing emission still writes its line,
with an empty location field. -/
theorem GetCaller_location (env : Env) (d : Int) :
    (∀ (p : String) (n : Int), env.caller d = some (p, n) → '/' ∈ p.data →
      ∃ dir base : List Char, '/' ∉ dir ∧ '/' ∉ base ∧
        (p.data = dir ++ '/' :: base ∨ ∃ q, p.data = q ++ '/' :: (dir ++ '/' :: base)) ∧
        GetCaller env d =
          .ok (String.mk dir ++ "/" ++ String.mk base ++ ":" ++ toString n)) ∧
    (∀ (p : String) (n : Int) (dir base : List Char), env.caller d = some (p, n) →
      '/' ∉ dir → '/' ∉ base →
      (p.data = dir ++ '/' :: base ∨ ∃ q, p.data = q ++ '/' :: (dir ++ '/' :: base)) →
        GetCaller env d =
          .ok (String.mk dir ++ "/" ++ String.mk base ++ ":" ++ toString n)) ∧
    (env.caller d = none →
      GetCaller env d = .ok "" ∧
      ∀ (l : Logger) (m : Method) (args : List String) (w : World),
        l.skipCallDepth = d → m.severity ≤ l.level →
          l.emit m env args w =
            (.ok (), l.logger.Println env (taskOrDash l.task :: "" :: m.tag :: args) w)) := by
  have key : ∀ (p : String) (n : Int) (dir base : List Char), env.caller d = some (p, n) →
      '/' ∉ dir → '/' ∉ base →
      (p.data = dir ++ '/' :: base ∨ ∃ q, p.data = q ++ '/' :: (dir ++ '/' :: base)) →
        GetCaller env d =
          .ok (String.mk dir ++ "/" ++ String.mk base ++ ":" ++ toString n) := by
    intro p n dir base hres hd hb hx
    obtain ⟨front, hs⟩ := splitOn_of_parts p.data dir base hd hb hx
    exact GetCaller_of_parts env d p n front dir base hres hs
  refine ⟨?_, key, ?_⟩
  · intro p n hres hslash
    obtain ⟨dir, base, hd, hb, hx⟩ := parts_of_slash p.data hslash
    exact ⟨dir, base, hd, hb, hx, key p n dir base hres hd hb hx⟩
  · intro hres
    refine ⟨GetCaller_unresolved env d hres, ?_⟩
    intro l m args w hdepth hle
    have hc : GetCaller env l.skipCallDepth = .ok "" := by
      rw [hdepth]; exact GetCaller_unresolved env d hres
    exact emit_pass l m env args w "" hle hc

/-- A call from line 88 of `log_test.go` is located at `log/log_test.go:88`;
two frames up nothing resolves, and the line is written with an empty
location. -/
theorem GetCaller_location_witness :
    GetCaller (testEnv 88) 3 = .ok "log/log_test.go:88" ∧
    GetCaller (testEnv 88) 2 = .ok "" ∧
    ((NewLogger (.closeBuffer 0) DebugLevel).SetSkipCallDepth 2).emit .Info (testEnv 88)
        ["aaaaa"] ⟨[]⟩ =
      (.ok (), ⟨[.write (.closeBuffer 0) "2024/01/02 03:04:05.000006 -  [INFO] aaaaa\n"]⟩) :=
  ⟨(GetCaller_location (testEnv 88) 3).2.1 "/root/go/src/log/log_test.go" 88
      "log".data "log_test.go".data rfl (by decide) (by decide)
      (Or.inr ⟨"/root/go/src".data, rfl⟩),
   ((GetCaller_location (testEnv 88) 2).2.2 rfl).1,
   ((GetCaller_location (testEnv 88) 2).2.2 rfl).2
      ((NewLogger (.closeBuffer 0) DebugLevel).SetSkipCallDepth 2) .Info ["aaaaa"] ⟨[]⟩ rfl
      (by decide)⟩

/-! ## Construction, reopening and closing -/

/-- Claim C12: on a logger with no recorded file path, and so on every logger
returned by `NewLogger`, `ReopenLogFile` returns normally with the logger as
it was (sink, line writer, level, task label, skip depth, file path) and
with no call made on any sink, so the sink is not closed. -/
theorem ReopenLogFile_noop (env : Env) (w : World) :
    (∀ l : Logger, l.filePath = "" →
      l.ReopenLogFile env w = (.ok l, w) ∧
      SinkCall.close l.out ∉ (l.ReopenLogFile env w).2.calls.drop w.calls.length) ∧
    (∀ (out : WriteCloser) (logLevel : Level),
      (NewLogger out logLevel).filePath = "" ∧
      (NewLogger out logLevel).ReopenLogFile env w = (.ok (NewLogger out logLevel), w)) := by
  constructor
  · intro l h
    rw [ReopenLogFile_empty l env w h]
    simp
  · intro out logLevel
    exact ⟨rfl, ReopenLogFile_empty _ env w rfl⟩

/-- The buffer logger of the tests is left alone by `ReopenLogFile`, even
where opening a file would succeed. -/
theorem ReopenLogFile_noop_witness :
    (NewLogger (.closeBuffer 0) DebugLevel).ReopenLogFile
        (fileEnv 7) ⟨[.write (.closeBuffer 0) "x\n"]⟩ =
      (.ok (NewLogger (.closeBuffer 0) DebugLevel), ⟨[.write (.closeBuffer 0) "x\n"]⟩) :=
  ((ReopenLogFile_noop (fileEnv 7) ⟨[.write (.closeBuffer 0) "x\n"]⟩).1
    (NewLogger (.closeBuffer 0) DebugLevel) rfl).1

/-- Claim C13: `NewLogger sink L` is bound to `sink`, has level `L`, an empty
task label (its lines start with a dash), skip depth 3 and no file path;
`NewFileLogger path L`, when the file opens, is the same logger on the
opened file with `path` recorded, and panics when the file does not open. -/
theorem NewLogger_fields (out : WriteCloser) (L : Level) :
    (NewLogger out L).out = out ∧
    (NewLogger out L).logger = New out "" logFlags ∧
    (NewLogger out L).level = L ∧
    (NewLogger out L).task = "" ∧
    (NewLogger out L).skipCallDepth = 3 ∧
    (NewLogger out L).filePath = "" ∧
    (∀ (m : Method) (env : Env) (args : List String) (w : World) (c : String),
      m.severity ≤ L → GetCaller env 3 = .ok c →
        (NewLogger out L).emit m env args w =
          (.ok (), w.record (.write out
            (env.stamp ++ Sprintln ("-" :: c :: m.tag :: args)))) ∧
        Sprintln ("-" :: c :: m.tag :: args) =
          "-" ++ spaced (c :: m.tag :: args) ++ "\n") ∧
    (∀ (env : Env) (path : String) (f : Handle), env.openFile path = .ok f →
      ∃ l, NewFileLogger env path L = .ok l ∧
        l.level = L ∧ l.filePath = path ∧ l.out = .handle f ∧
        l.logger = New (.handle f) "" logFlags ∧ l.task = "" ∧ l.skipCallDepth = 3) ∧
    (∀ (env : Env) (path e : String), env.openFile path = .error e →
      NewFileLogger env path L = .error ("Failed to open log file " ++ path)) := by
  refine ⟨rfl, rfl, rfl, rfl, rfl, rfl, ?_, ?_, ?_⟩
  · intro m env args w c hle hc
    rw [emit_pass (NewLogger out L) m env args w c hle hc,
      wired_Println _ (NewLogger_wired out L)]
    exact ⟨rfl, Sprintln_cons _ _⟩
  · intro env path f ho
    refine ⟨{ NewLogger (.handle f) L with filePath := path }, ?_, rfl, rfl, rfl, rfl, rfl, rfl⟩
    unfold NewFileLogger
    rw [ho]
  · intro env path e ho
    unfold NewFileLogger
    rw [ho]

/-- The loggers of `TestLogger_ResetLevel` and `TestNewFileLogger`. -/
theorem NewLogger_fields_witness :
    (NewLogger (.closeBuffer 0) WarnLevel).level = WarnLevel ∧
    (NewLogger (.closeBuffer 0) WarnLevel).emit .Warn (testEnv 169) ["bbb"] ⟨[]⟩ =
      (.ok (), ⟨[.write (.closeBuffer 0)
        "2024/01/02 03:04:05.000006 - log/log_test.go:169 [WARN] bbb\n"]⟩) ∧
    (∃ l, NewFileLogger (fileEnv 7) "./log.log" InfoLevel = .ok l ∧
      l.level = InfoLevel ∧ l.filePath = "./log.log" ∧ l.out = .handle 7 ∧
      l.logger = New (.handle 7) "" logFlags ∧ l.task = "" ∧ l.skipCallDepth = 3) ∧
    NewFileLogger (testEnv 73) "./log.log" InfoLevel =
      .error "Failed to open log file ./log.log" :=
  have h := NewLogger_fields (.closeBuffer 0) WarnLevel
  have g := NewLogger_fields (.closeBuffer 0) InfoLevel
  ⟨h.2.2.1,
   (h.2.2.2.2.2.2.1 .Warn (testEnv 169) ["bbb"] ⟨[]⟩ "log/log_test.go:169" (by decide) rfl).1,
   g.2.2.2.2.2.2.2.1 (fileEnv 7) "./log.log" 7 rfl,
   g.2.2.2.2.2.2.2.2 (testEnv 73) "./log.log" "permission denied" rfl⟩

/-- Claim C14: `Close` returns what the `Close` method of the sink returns: on
a sink other than a `CloseBuffer`, the error or success of that sink, handed
on as it is; on a `CloseBuffer`, no error, and the buffer is empty afterwards
whatever had been written to it. -/
theorem Close_result (l : Logger) (env : Env) (w : World) :
    l.Close env w = l.out.Close env w ∧
    (l.Close env w).2 = w.record (.close l.out) ∧
    (∀ fd, l.out = .handle fd → (l.Close env w).1 = env.closeErr fd) ∧
    (∀ buf, l.out = .closeBuffer buf →
      (l.Close env w).1 = none ∧ CloseBuffer.String (l.Close env w).2 buf = "") := by
  refine ⟨rfl, Close_world l.out env w, ?_, ?_⟩
  · intro fd h
    unfold Logger.Close
    rw [h]
    rfl
  · intro buf h
    unfold Logger.Close
    rw [h]
    exact ⟨rfl, String_after_close w buf⟩

/-- The end of `TestLogger`: after the five lines, `Close` on the buffer
logger returns no error and the buffer is empty; on a file whose `Close`
fails, the error comes back. -/
theorem Close_result_witness :
    CloseBuffer.String ((NewLogger (.closeBuffer 0) DebugLevel).run testCalls ⟨[]⟩).2 0 ≠ "" ∧
    ((NewLogger (.closeBuffer 0) DebugLevel).Close (testEnv 111)
      ((NewLogger (.closeBuffer 0) DebugLevel).run testCalls ⟨[]⟩).2).1 = none ∧
    CloseBuffer.String ((NewLogger (.closeBuffer 0) DebugLevel).Close (testEnv 111)
      ((NewLogger (.closeBuffer 0) DebugLevel).run testCalls ⟨[]⟩).2).2 0 = "" ∧
    ((NewLogger (.handle 7) DebugLevel).Close
      { testEnv 111 with closeErr := fun _ => some "file already closed" } ⟨[]⟩).1 =
        some "file already closed" :=
  ⟨by decide,
   ((Close_result (NewLogger (.closeBuffer 0) DebugLevel) (testEnv 111)
      ((NewLogger (.closeBuffer 0) DebugLevel).run testCalls ⟨[]⟩).2).2.2.2 0 rfl).1,
   ((Close_result (NewLogger (.closeBuffer 0) DebugLevel) (testEnv 111)
      ((NewLogger (.closeBuffer 0) DebugLevel).run testCalls ⟨[]⟩).2).2.2.2 0 rfl).2,
   (Close_result (NewLogger (.handle 7) DebugLevel)
      { testEnv 111 with closeErr := fun _ => some "file already closed" } ⟨[]⟩).2.2.1 7 rfl⟩

/-! ## The index into the split path -/

/-- Claim C15: for a resolved frame with path `p`, the index `len(parts)-2`
into the split of `p` is in range exactly when `p` contains a slash; with a
slash `GetCaller` returns a location, without one the lookup panics and so
does the emission that asked for the location. -/
theorem GetCaller_index_range (env : Env) (d : Int) (p : String) (n : Int)
    (hres : env.caller d = some (p, n)) :
    ((∃ x, index (Split p) (((Split p).length : Int) - 2) = .ok x) ↔ '/' ∈ p.data) ∧
    ('/' ∈ p.data → ∃ c, GetCaller env d = .ok c) ∧
    ('/' ∉ p.data →
      index (Split p) (((Split p).length : Int) - 2) =
        .error "runtime error: index out of range" ∧
      GetCaller env d = .error "runtime error: index out of range" ∧
      ∀ (l : Logger) (m : Method) (args : List String) (w : World),
        l.skipCallDepth = d → m.severity ≤ l.level →
          l.emit m env args w = (.error "runtime error: index out of range", w)) := by
  have hin : '/' ∈ p.data → ∃ x, index (Split p) (((Split p).length : Int) - 2) = .ok x := by
    intro hslash
    obtain ⟨dir, base, hd, hb, hx⟩ := parts_of_slash p.data hslash
    obtain ⟨front, hs⟩ := splitOn_of_parts p.data dir base hd hb hx
    have hsp : Split p = front.map String.mk ++ [String.mk dir, String.mk base] := by
      unfold Split
      rw [hs]
      simp
    rw [hsp]
    exact ⟨_, index_penultimate _ _ _⟩
  have hout : '/' ∉ p.data →
      index (Split p) (((Split p).length : Int) - 2) =
        .error "runtime error: index out of range" := by
    intro hbare
    have hsp : Split p = [p] := by
      unfold Split
      rw [splitOn_no_sep p.data hbare]
      rfl
    rw [hsp]
    rfl
  refine ⟨⟨?_, hin⟩, ?_, ?_⟩
  · rintro ⟨x, hx⟩
    by_contra hbare
    rw [hout hbare] at hx
    cases hx
  · intro hslash
    obtain ⟨dir, base, hd, hb, hx⟩ := parts_of_slash p.data hslash
    obtain ⟨front, hs⟩ := splitOn_of_parts p.data dir base hd hb hx
    exact ⟨_, GetCaller_of_parts env d p n front dir base hres hs⟩
  · intro hbare
    refine ⟨hout hbare, GetCaller_of_bare env d p n hres hbare, ?_⟩
    intro l m args w hdepth hle
    have hc : GetCaller env l.skipCallDepth = .error "runtime error: index out of range" := by
      rw [hdepth]; exact GetCaller_of_bare env d p n hres hbare
    rw [emit_eq, if_neg (not_lt.2 hle), tagged_error l env _ args w _ hc]

/-- A frame with the bare file name `<autogenerated>` makes `GetCaller` and
the emission panic; the frame of `log_test.go` gives a location. -/
theorem GetCaller_index_range_witness :
    GetCaller bareEnv 3 = .error "runtime error: index out of range" ∧
    (NewLogger (.closeBuffer 0) DebugLevel).emit .Info bareEnv ["aaaaa"] ⟨[]⟩ =
      (.error "runtime error: index out of range", ⟨[]⟩) ∧
    (∃ c, GetCaller (testEnv 88) 3 = .ok c) :=
  ⟨((GetCaller_index_range bareEnv 3 "<autogenerated>" 1 rfl).2.2 (by decide)).2.1,
   ((GetCaller_index_range bareEnv 3 "<autogenerated>" 1 rfl).2.2 (by decide)).2.2
      (NewLogger (.closeBuffer 0) DebugLevel) .Info ["aaaaa"] ⟨[]⟩ rfl (by decide),
   (GetCaller_index_range (testEnv 88) 3 "/root/go/src/log/log_test.go" 88 rfl).2.1
      (by decide)⟩

/-! ## Reopening and derived loggers -/

/-- Claim C16: a logger derived by `NewWithTaskName` has no file path, also
when it is derived from a logger returned by `NewFileLogger` with a
non-empty path; `ReopenLogFile` on the derived logger therefore returns it
as it was, sink and line writer included, and makes no call on any sink. -/
theorem derived_no_filePath (l : Logger) (label : String) (env : Env) (w : World) :
    (l.NewWithTaskName label).filePath = "" ∧
    (l.NewWithTaskName label).ReopenLogFile env w = (.ok (l.NewWithTaskName label), w) ∧
    (∀ (env0 : Env) (path : String) (L : Level), path ≠ "" →
      NewFileLogger env0 path L = .ok l →
        l.filePath = path ∧ (l.NewWithTaskName label).filePath = "" ∧
        ((l.NewWithTaskName label).ReopenLogFile env w).1 = .ok (l.NewWithTaskName label) ∧
        ((l.NewWithTaskName label).ReopenLogFile env w).2 = w) := by
  have hre := ReopenLogFile_empty (l.NewWithTaskName label) env w rfl
  refine ⟨rfl, hre, ?_⟩
  intro env0 path L _ hnew
  refine ⟨?_, rfl, by rw [hre], by rw [hre]⟩
  unfold NewFileLogger at hnew
  cases ho : env0.openFile path with
  | error e => rw [ho] at hnew; cases hnew
  | ok f =>
    rw [ho] at hnew
    cases hnew
    rfl

/-- A logger derived from the file logger of `TestNewFileLogger` is not
reopened: it keeps writing to file 7, although opening would give file 8. -/
theorem derived_no_filePath_witness :
    ({ NewLogger (.handle 7) InfoLevel with filePath := "./log.log" } : Logger).filePath =
      "./log.log" ∧
    (({ NewLogger (.handle 7) InfoLevel with filePath := "./log.log" } : Logger).NewWithTaskName
      "request-id").filePath = "" ∧
    ((({ NewLogger (.handle 7) InfoLevel with filePath := "./log.log" } : Logger).NewWithTaskName
      "request-id").ReopenLogFile (fileEnv 8) ⟨[]⟩).1 =
      .ok (({ NewLogger (.handle 7) InfoLevel with filePath := "./log.log" } :
        Logger).NewWithTaskName "request-id") ∧
    ((({ NewLogger (.handle 7) InfoLevel with filePath := "./log.log" } : Logger).NewWithTaskName
      "request-id").ReopenLogFile (fileEnv 8) ⟨[]⟩).2 = ⟨[]⟩ :=
  (derived_no_filePath { NewLogger (.handle 7) InfoLevel with filePath := "./log.log" }
    "request-id" (fileEnv 8) ⟨[]⟩).2.2 (fileEnv 7) "./log.log" InfoLevel (by decide) rfl

/-- Claim C17: for a logger `l` with a recorded file path and a logger `d`
derived from it beforehand, a `ReopenLogFile` on `l` whose open succeeds
leaves `l` with the new file as sink and a new line writer on it, with its
level, task label, skip depth and file path unchanged; `d` keeps the old
sink and the old line writer, and the old sink has received a `Close`. -/
theorem ReopenLogFile_swaps (l : Logger) (hl : l.wired) (label : String) (env : Env) (w : World)
    (f : Handle) (hfile : l.filePath ≠ "") (hopen : env.openFile l.filePath = .ok f) :
    ∃ l1 : Logger,
      (Vars.derive l label).reopenL env w =
        (.ok { l := l1, d := l.NewWithTaskName label }, w.record (.close l.out)) ∧
      l1.out = .handle f ∧ l1.logger = New (.handle f) "" logFlags ∧ l1.logger.out = .handle f ∧
      l1.level = l.level ∧ l1.task = l.task ∧ l1.skipCallDepth = l.skipCallDepth ∧
      l1.filePath = l.filePath ∧
      (l.NewWithTaskName label).out = l.out ∧
      (l.NewWithTaskName label).logger = l.logger ∧
      (l.NewWithTaskName label).logger.out = l.out := by
  refine ⟨{ l with out := .handle f, logger := New (.handle f) "" logFlags }, ?_, rfl, rfl, rfl,
    rfl, rfl, rfl, rfl, rfl, rfl, ?_⟩
  · unfold Vars.reopenL Vars.derive
    simp only [ReopenLogFile_open l env w f hfile hopen]
  · show l.logger.out = l.out
    unfold Logger.wired at hl
    rw [hl]
    rfl

/-- The file logger on file 7, reopened on file 8: the logger itself moves to
file 8, the derived logger stays on file 7, and file 7 is closed. -/
theorem ReopenLogFile_swaps_witness :
    ∃ l1 : Logger,
      (Vars.derive { NewLogger (.handle 7) InfoLevel with filePath := "./log.log" }
        "request-id").reopenL (fileEnv 8) ⟨[]⟩ =
        (.ok { l := l1,
               d := ({ NewLogger (.handle 7) InfoLevel with filePath := "./log.log" } :
                 Logger).NewWithTaskName "request-id" },
          ⟨[.close (.handle 7)]⟩) ∧
      l1.out = .handle 8 ∧ l1.logger.out = .handle 8 ∧ l1.filePath = "./log.log" :=
  have h := ReopenLogFile_swaps { NewLogger (.handle 7) InfoLevel with filePath := "./log.log" }
    (by decide) "request-id" (fileEnv 8) ⟨[]⟩ 8 (by decide) rfl
  match h with
  | ⟨l1, h1, h2, _, h4, _, _, _, h8, _, _, _⟩ => ⟨l1, h1, h2, h4, h8⟩

end GoLog
